import Mathlib

/-!
Shallow embedding of the ToyTcp user-space TCP implementation
(src/src/tcp.rs and src/src/lib.rs).

Machine integers (`u32` sequence numbers, `u16` windows, `usize` lengths)
are modelled as `Nat` with explicit reduction modulo 2^32 where the source
uses `wrapping_add` / `wrapping_sub` / `as u32` casts.  Operations whose
source can panic (slice indexing out of range, `assert!` failures,
plain `-` underflow in debug builds, `unimplemented!`) return `Option`,
with `none` standing for the panic.  Wall-clock instants (`time::Instant`)
and the `f64` smoothed round-trip estimate are modelled over `ℚ`: every
operation that reads the clock takes the current instant `now : ℚ`, and
`send_times` stores the instant at which each segment was sent; `f64`
rounding is abstracted to exact arithmetic.
-/

namespace ToyTcp

/-- The modulus 2^32 of `u32` arithmetic. -/
def M : Nat := 4294967296

/-- Model of `u32::wrapping_add`. -/
def add32 (a b : Nat) : Nat := (a + b) % M

/-- Model of `u32::wrapping_sub` (also used for `a.wrapping_sub(b) as usize`). -/
def sub32 (a b : Nat) : Nat := (a + (M - b % M)) % M

/-- tcp.rs `wrapping_lt`: `lhs.wrapping_sub(rhs) > (1 << 31)`. -/
def wrapping_lt (lhs rhs : Nat) : Bool := decide (sub32 lhs rhs > 2 ^ 31)

/-- tcp.rs `is_between_wrapped`: `wrapping_lt(start, x) && wrapping_lt(x, end)`. -/
def is_between_wrapped (start x e : Nat) : Bool :=
  wrapping_lt start x && wrapping_lt x e

/-- tcp.rs `enum State` (Closed and Listen are commented out in the source). -/
inductive State where
  | SynRecvd
  | Estab
  | FinWait1
  | FinWait2
  | TimeWait
deriving DecidableEq, Repr

/-- tcp.rs `State::is_synchronized`. -/
def State.is_synchronized : State → Bool
  | .SynRecvd => false
  | .Estab | .FinWait1 | .FinWait2 | .TimeWait => true

/-- tcp.rs `struct SendSequenceSpace`. -/
structure SendSequenceSpace where
  una : Nat
  nxt : Nat
  wnd : Nat
  up : Bool
  wl1 : Nat
  wl2 : Nat
  iss : Nat
deriving DecidableEq, Repr

/-- tcp.rs `struct RecvSequenceSpace`. -/
structure RecvSequenceSpace where
  nxt : Nat
  wnd : Nat
  up : Bool
  irs : Nat
deriving DecidableEq, Repr

/-- tcp.rs `struct Timers`: `send_times` is a `BTreeMap<u32, Instant>`,
modelled as an association list sorted by strictly increasing key;
`srtt` is the smoothed round-trip estimate. -/
structure Timers where
  send_times : List (Nat × ℚ)
  srtt : ℚ
deriving DecidableEq, Repr

/-- The fields of the cached `etherparse::Ipv4Header` template that the
core reads or writes.  The two IPv4 addresses are modelled as plain
numbers (the source copies them byte by byte). -/
structure IpHeader where
  payload_len : Nat
  ttl : Nat
  protocol : Nat
  source : Nat
  destination : Nat
deriving DecidableEq, Repr

/-- The fields of the cached `etherparse::TcpHeader` template (also used
for incoming parsed headers).  `checksum` is recomputed on every `write`
and never read back, so it is omitted. -/
structure TcpHeader where
  source_port : Nat
  destination_port : Nat
  sequence_number : Nat
  acknowledgment_number : Nat
  window_size : Nat
  syn : Bool
  ack : Bool
  fin : Bool
  rst : Bool
deriving DecidableEq, Repr

/-- tcp.rs `struct Connection` (the PCB). -/
structure Connection where
  state : State
  send : SendSequenceSpace
  recv : RecvSequenceSpace
  ip : IpHeader
  tcp : TcpHeader
  timers : Timers
  incoming : List Nat
  unacked : List Nat
  closed : Bool
  closed_at : Option Nat
deriving DecidableEq, Repr

/-- One TCP segment handed to `nic.send` (IPv4 and TCP headers rendered
into the 1500-byte buffer plus the copied payload bytes). -/
structure OutSeg where
  source_port : Nat
  destination_port : Nat
  seq : Nat
  ack_num : Nat
  window_size : Nat
  syn : Bool
  ack : Bool
  fin : Bool
  rst : Bool
  payload : List Nat
deriving DecidableEq, Repr

/-- tcp.rs `bitflags Available`. -/
structure Available where
  read : Bool
  write : Bool
deriving DecidableEq, Repr

/-- An incoming packet as seen by `accept` / `on_packet`: the parsed IPv4
header slice, the parsed TCP header slice and the payload bytes. -/
structure InPacket where
  iph : IpHeader
  tcph : TcpHeader
  payload : List Nat
deriving DecidableEq, Repr

/-- Model of `BTreeMap::insert`: ordered insert replacing an existing key. -/
def tinsert : List (Nat × ℚ) → Nat → ℚ → List (Nat × ℚ)
  | [], k, v => [(k, v)]
  | (k', v') :: rest, k, v =>
    if k < k' then (k, v) :: (k', v') :: rest
    else if k = k' then (k, v) :: rest
    else (k', v') :: tinsert rest k v

/-- Model of `BTreeMap::range(k..).next()`: the entry with the smallest key `≥ k`
(the list is sorted by key, so it is the first such entry). -/
def lookupGE (ts : List (Nat × ℚ)) (k : Nat) : Option (Nat × ℚ) :=
  ts.find? (fun e => k ≤ e.1)

/-- tcp.rs `Connection::is_rcv_closed`. -/
def Connection.is_rcv_closed (c : Connection) : Bool := c.state = State.TimeWait

/-- tcp.rs `Connection::availability` (the WRITE bit is never raised). -/
def Connection.availability (c : Connection) : Available :=
  { read := c.is_rcv_closed || !c.incoming.isEmpty, write := false }

/-- The offset/limit adjustment at the top of `Connection::write`:
`offset = seq.wrapping_sub(send.una) as usize`, and both the offset and
the limit are forced to `0` when `closed_at` is set and
`seq == closed_at.wrapping_add(1)` (retransmit of the FIN-only segment
after its sequence number has been consumed). -/
def wOff (c : Connection) (seq limit : Nat) : Nat × Nat :=
  match c.closed_at with
  | some closed_at =>
    if seq = add32 closed_at 1 then (0, 0) else (sub32 seq c.send.una, limit)
  | none => (sub32 seq c.send.una, limit)

/-- tcp.rs `Connection::write`, the internal segment emitter.

The source skips `offset` bytes across the two `as_slices` halves of the
`unacked` ring; when `offset` exceeds `unacked.len()` the slice index
`&t[(offset - skipped)..]` is out of range and the source panics, which
is modelled as `none` (for `offset ≤ unacked.len()` the result does not
depend on where the ring is split).  At most
`1500 - ip_header - tcp_header = 1460` payload bytes fit in the buffer.
`next_seq` adds the payload length plus one for each of the SYN and FIN
template flags, which are cleared; `send.nxt` advances to `next_seq`
only when `wrapping_lt(send.nxt, next_seq)`; the send instant is
recorded in `send_times` under key `seq`. -/
def Connection.write (c : Connection) (now : ℚ) (seq : Nat) (limit : Nat) :
    Option (Connection × OutSeg) :=
  let ol : Nat × Nat := wOff c seq limit
  if ol.1 ≤ c.unacked.length then
    let avail := c.unacked.drop ol.1
    let max_data := min ol.2 avail.length
    let payload := avail.take (min max_data 1460)
    let payload_bytes := payload.length
    let next_seq0 := add32 seq payload_bytes
    let next_seq1 := if c.tcp.syn then add32 next_seq0 1 else next_seq0
    let next_seq := if c.tcp.fin then add32 next_seq1 1 else next_seq1
    let seg : OutSeg :=
      { source_port := c.tcp.source_port
        destination_port := c.tcp.destination_port
        seq := seq
        ack_num := c.recv.nxt
        window_size := c.tcp.window_size
        syn := c.tcp.syn
        ack := c.tcp.ack
        fin := c.tcp.fin
        rst := c.tcp.rst
        payload := payload }
    let c' : Connection :=
      { c with
        tcp := { c.tcp with
                  sequence_number := seq
                  acknowledgment_number := c.recv.nxt
                  syn := false
                  fin := false }
        send := { c.send with
                   nxt := if wrapping_lt c.send.nxt next_seq then next_seq
                          else c.send.nxt }
        timers := { c.timers with
                     send_times := tinsert c.timers.send_times seq now } }
    some (c', seg)
  else none

/-- tcp.rs `Connection::accept`.  Returns `none` when the SYN flag is
unset (`Ok(None)` in the source, which emits nothing); otherwise builds
the PCB in `SynRecvd` with `iss = 0`, `send.wnd = 1024`,
`recv.irs = tcph.seq`, `recv.nxt = tcph.seq + 1`,
`recv.wnd = tcph.window`, swapped addresses and ports, TTL 64,
protocol 6, and emits the SYN|ACK through `write`. -/
def Connection.accept (p : InPacket) (now : ℚ) : Option (Connection × OutSeg) :=
  if !p.tcph.syn then none
  else
    let iss := 0
    let wnd := 1024
    let c : Connection :=
      { state := State.SynRecvd
        send := { iss := iss, una := iss, nxt := iss, wnd := wnd,
                  up := false, wl1 := 0, wl2 := 0 }
        recv := { irs := p.tcph.sequence_number
                  nxt := add32 p.tcph.sequence_number 1
                  wnd := p.tcph.window_size
                  up := false }
        tcp := { source_port := p.tcph.destination_port
                 destination_port := p.tcph.source_port
                 sequence_number := iss
                 acknowledgment_number := 0
                 window_size := wnd
                 syn := true, ack := true, fin := false, rst := false }
        ip := { payload_len := 0, ttl := 64, protocol := 6
                source := p.iph.destination, destination := p.iph.source }
        timers := { send_times := [], srtt := 60 }
        incoming := [], unacked := []
        closed := false, closed_at := none }
    c.write now c.send.nxt 0

/-- tcp.rs `Connection::on_tick`.  Fast exit in FinWait2/TimeWait;
`nunacked = closed_at.unwrap_or(send.nxt).wrapping_sub(send.una)`;
`nunsent = unacked.len() as u32 - nunacked` and
`allowed = send.wnd as u32 - nunacked` use plain `-`, which panics on
underflow in debug builds (modelled as `none`).  Retransmits when the
oldest in-flight segment has waited more than 1 s and more than
1.5·srtt, otherwise sends fresh data from `send.nxt`; either path may
frame the FIN and record `closed_at`. -/
def Connection.on_tick (c : Connection) (now : ℚ) : Option (Connection × List OutSeg) :=
  if c.state = State.FinWait2 ∨ c.state = State.TimeWait then some (c, [])
  else
    let nunacked := sub32 (c.closed_at.getD c.send.nxt) c.send.una
    if c.unacked.length < nunacked then none
    else
      let nunsent := c.unacked.length - nunacked
      let waited := (lookupGE c.timers.send_times c.send.una).map (fun e => now - e.2)
      let should_retransmit :=
        match waited with
        | some w => decide ((1 : ℚ) < w) && decide (3 / 2 * c.timers.srtt < w)
        | none => false
      if should_retransmit then
        let resend := min c.unacked.length c.send.wnd
        let c1 :=
          if resend < c.send.wnd ∧ c.closed then
            { c with tcp := { c.tcp with fin := true }
                     closed_at := some (add32 c.send.una c.unacked.length) }
          else c
        match c1.write now c1.send.una resend with
        | none => none
        | some (c2, s) => some (c2, [s])
      else
        if nunsent = 0 ∧ c.closed_at.isSome then some (c, [])
        else if c.send.wnd < nunacked then none
        else
          let allowed := c.send.wnd - nunacked
          if allowed = 0 then some (c, [])
          else
            let send := min nunsent allowed
            let c1 :=
              if send < allowed ∧ c.closed ∧ c.closed_at.isNone then
                { c with tcp := { c.tcp with fin := true }
                         closed_at := some (add32 c.send.una c.unacked.length) }
              else c
            match c1.write now c1.send.nxt send with
            | none => none
            | some (c2, s) => some (c2, [s])

/-- The acceptability check of tcp.rs `on_packet` (lines 304-330),
computed from `recv.nxt`, `recv.wnd`, the segment sequence number and
`slen = payload.len() + fin + syn`, with
`wend = recv.nxt.wrapping_add(recv.wnd)`. -/
def seg_okay (rnxt rwnd seqn slen : Nat) : Bool :=
  let wend := add32 rnxt rwnd
  if slen = 0 then
    if rwnd = 0 then decide (seqn = rnxt)
    else is_between_wrapped (sub32 rnxt 1) seqn wend
  else
    if rwnd = 0 then false
    else
      is_between_wrapped (sub32 rnxt 1) seqn wend
        || is_between_wrapped (sub32 rnxt 1) (add32 seqn (slen - 1)) wend

/-- The cumulative-ACK block of `on_packet` (lines 357-385): in
Estab/FinWait1/FinWait2, when `ackn` lies strictly inside
`(send.una, send.nxt + 1)`, and only when `unacked` is non-empty, drain
`min(ackn - data_start, unacked.len())` bytes from the head of `unacked`
(`data_start` accounts for the SYN octet while `una == iss`) and rebuild
`send_times`, dropping each entry whose key lies strictly inside
`(send.una, ackn)` while folding its elapsed time into
`srtt ← 0.8·srtt + 0.2·elapsed`; finally set `send.una = ackn`. -/
def ack_update (c : Connection) (ackn : Nat) (now : ℚ) : Connection :=
  if (c.state = State.Estab ∨ c.state = State.FinWait1 ∨ c.state = State.FinWait2)
      ∧ is_between_wrapped c.send.una ackn (add32 c.send.nxt 1) = true then
    let c1 :=
      if c.unacked.isEmpty then c
      else
        let data_start :=
          if c.send.una = c.send.iss then add32 c.send.una 1 else c.send.una
        let acked_data_end := min (sub32 ackn data_start) c.unacked.length
        let st :=
          c.timers.send_times.foldl
            (fun acc e =>
              if is_between_wrapped c.send.una e.1 ackn then
                (acc.1, 4 / 5 * acc.2 + 1 / 5 * (now - e.2))
              else (acc.1 ++ [e], acc.2))
            (([] : List (Nat × ℚ)), c.timers.srtt)
        { c with unacked := c.unacked.drop acked_data_end
                 timers := { send_times := st.1, srtt := st.2 } }
    { c1 with send := { c1.send with una := ackn } }
  else c

/-- The SynRecvd → Estab step of `on_packet` (lines 347-355): the state
becomes Estab when `ackn` lies strictly inside
`(send.una - 1, send.nxt + 1)`; otherwise nothing happens. -/
def estab_transition (c : Connection) (ackn : Nat) : Connection :=
  if c.state = State.SynRecvd
      ∧ is_between_wrapped (sub32 c.send.una 1) ackn (add32 c.send.nxt 1) = true
  then { c with state := State.Estab }
  else c

/-- The FinWait1 → FinWait2 step of `on_packet` (lines 387-393): the
state advances when `closed_at` is set and `send.una == closed_at + 1`
(our FIN has been acknowledged). -/
def finwait_check (c : Connection) : Connection :=
  if c.state = State.FinWait1 then
    match c.closed_at with
    | some closed_at =>
      if c.send.una = add32 closed_at 1 then { c with state := State.FinWait2 }
      else c
    | none => c
  else c

/-- The data-delivery block of `on_packet` (lines 395-407): with a
non-empty payload in Estab/FinWait1/FinWait2, compute
`unread_data_at = recv.nxt.wrapping_sub(seqn) as usize`; when it exceeds
`payload.len()` the source asserts `unread_data_at == payload.len() + 1`
(panic, i.e. `none`, otherwise) and clamps it to 0; append
`payload[unread_data_at..]` to `incoming`, advance
`recv.nxt = seqn + payload.len()` and emit an immediate ACK. -/
def data_delivery (c : Connection) (seqn : Nat) (payload : List Nat) (now : ℚ) :
    Option (Connection × List OutSeg) :=
  if payload.isEmpty then some (c, [])
  else if c.state = State.Estab ∨ c.state = State.FinWait1
      ∨ c.state = State.FinWait2 then
    let unread0 := sub32 c.recv.nxt seqn
    let unread? : Option Nat :=
      if unread0 > payload.length then
        if unread0 = payload.length + 1 then some 0 else none
      else some unread0
    match unread? with
    | none => none
    | some unread =>
      let c1 := { c with incoming := c.incoming ++ payload.drop unread
                         recv := { c.recv with nxt := add32 seqn payload.length } }
      match c1.write now c1.send.nxt 0 with
      | none => none
      | some (c2, s) => some (c2, [s])
  else some (c, [])

/-- The FIN block of `on_packet` (lines 409-418): only
FinWait2 → TimeWait is implemented; `recv.nxt` advances by one, an ACK
is emitted and the state becomes TimeWait.  A FIN in any other state
hits `unimplemented!` (modelled as `none`). -/
def fin_step (c : Connection) (fin : Bool) (now : ℚ) :
    Option (Connection × List OutSeg) :=
  if !fin then some (c, [])
  else
    match c.state with
    | State.FinWait2 =>
      let c1 := { c with recv := { c.recv with nxt := add32 c.recv.nxt 1 } }
      match c1.write now c1.send.nxt 0 with
      | none => none
      | some (c2, s) => some ({ c2 with state := State.TimeWait }, [s])
    | _ => none

/-- tcp.rs `Connection::on_packet`, glued from the stage functions in
source order: acceptability check (bare ACK and current availability on
failure), the no-ACK early return (advancing `recv.nxt` on a bare SYN,
whose `assert!(data.is_empty())` is modelled as `none` on failure),
the SynRecvd → Estab transition, cumulative-ACK processing, the
FinWait1 → FinWait2 check against `closed_at + 1`, data delivery, and
FIN handling; the availability of the final state is returned. -/
def Connection.on_packet (c : Connection) (tcph : TcpHeader) (payload : List Nat)
    (now : ℚ) : Option (Connection × List OutSeg × Available) :=
  let seqn := tcph.sequence_number
  let slen := payload.length + (if tcph.fin then 1 else 0)
      + (if tcph.syn then 1 else 0)
  if !seg_okay c.recv.nxt c.recv.wnd seqn slen then
    match c.write now c.send.nxt 0 with
    | none => none
    | some (c1, s) => some (c1, [s], c1.availability)
  else if !tcph.ack then
    if tcph.syn then
      if payload.isEmpty then
        let c1 := { c with recv := { c.recv with nxt := add32 seqn 1 } }
        some (c1, [], c1.availability)
      else none
    else some (c, [], c.availability)
  else
    let ackn := tcph.acknowledgment_number
    let c3 := finwait_check (ack_update (estab_transition c ackn) ackn now)
    match data_delivery c3 seqn payload now with
    | none => none
    | some (c4, segs1) =>
      match fin_step c4 tcph.fin now with
      | none => none
      | some (c5, segs2) => some (c5, segs1 ++ segs2, c5.availability)

/-- The error kinds of lib.rs that the modelled operations surface. -/
inductive IoErr where
  | NotConnected
  | WouldBlock
  | ConnectionAborted
deriving DecidableEq, Repr

/-- tcp.rs `Connection::close`: sets `closed = true` before matching on
the state; SynRecvd/Estab go to FinWait1, FinWait1/FinWait2 no-op,
TimeWait returns the NotConnected error.  No segment is emitted (the
returned list is the set of `nic.send` calls the source makes: none). -/
def Connection.close (c : Connection) : Connection × Option IoErr × List OutSeg :=
  let c1 := { c with closed := true }
  match c.state with
  | State.SynRecvd | State.Estab => ({ c1 with state := State.FinWait1 }, none, [])
  | State.FinWait1 | State.FinWait2 => (c1, none, [])
  | State.TimeWait => (c1, some IoErr.NotConnected, [])

/-- lib.rs `SENDQUEUE_SIZE`. -/
def SENDQUEUE_SIZE : Nat := 1024

/-- lib.rs `impl Write for TcpStream::write`: looking up the PCB under
the mutex (`none` = evicted, connection aborted); would-block without
mutating when `unacked.len() >= SENDQUEUE_SIZE`; otherwise append
`min(buf.len(), SENDQUEUE_SIZE - unacked.len())` bytes and return the
count.  The first component is the PCB as left in the table, the last
the (empty) set of segments the call sends. -/
def streamWrite (c? : Option Connection) (buf : List Nat) :
    Option Connection × Except IoErr Nat × List OutSeg :=
  match c? with
  | none => (none, Except.error IoErr.ConnectionAborted, [])
  | some c =>
    if SENDQUEUE_SIZE ≤ c.unacked.length then
      (some c, Except.error IoErr.WouldBlock, [])
    else
      let nwrite := min buf.length (SENDQUEUE_SIZE - c.unacked.length)
      (some { c with unacked := c.unacked ++ buf.take nwrite },
       Except.ok nwrite, [])

/-- The reachable PCB states: a PCB is created by `accept` and then
mutated by the ingress thread (`on_packet`, `on_tick`) and by
application threads (`TcpStream::write` appending to `unacked`, and
`close`).  The `< M` side conditions record that the corresponding
header fields are `u32` values. -/
inductive Reach : Connection → Prop where
  | start {p : InPacket} {now : ℚ} {c : Connection} {s : OutSeg} :
      Connection.accept p now = some (c, s) → Reach c
  | pkt {c : Connection} {tcph : TcpHeader} {payload : List Nat} {now : ℚ}
      {c' : Connection} {segs : List OutSeg} {a : Available} :
      Reach c → tcph.acknowledgment_number < M →
      Connection.on_packet c tcph payload now = some (c', segs, a) → Reach c'
  | tick {c : Connection} {now : ℚ} {c' : Connection} {segs : List OutSeg} :
      Reach c → Connection.on_tick c now = some (c', segs) → Reach c'
  | app_close {c : Connection} : Reach c → Reach (Connection.close c).1
  | app_write {c : Connection} {buf : List Nat} {c' : Connection}
      {r : Except IoErr Nat} {segs : List OutSeg} :
      Reach c → streamWrite (some c) buf = (some c', r, segs) → Reach c'

/-- The payload bytes a completed `Connection::write` call copies out of
`unacked`. -/
def wPayload (c : Connection) (seq limit : Nat) : List Nat :=
  (c.unacked.drop (wOff c seq limit).1).take
    (min (min (wOff c seq limit).2
      (c.unacked.length - (wOff c seq limit).1)) 1460)

/-- The `next_seq` a completed `Connection::write` call computes. -/
def wNext (c : Connection) (seq limit : Nat) : Nat :=
  add32 seq ((wPayload c seq limit).length + (if c.tcp.syn then 1 else 0)
    + (if c.tcp.fin then 1 else 0))

/-- The inductive invariant carried by every reachable PCB: the send
space stays inside `u32`, `send.nxt` runs at most `unacked.len() + 2`
sequence numbers ahead of `send.una` (data in flight plus the SYN and
FIN octets), the send queue respects its 1024-byte bound, and the SYN
and FIN bits of the cached header template are clear between calls. -/
def Inv (c : Connection) : Prop :=
  c.send.una < M ∧ c.send.nxt < M ∧
  sub32 c.send.nxt c.send.una ≤ c.unacked.length + 2 ∧
  c.unacked.length ≤ 1024 ∧
  c.tcp.syn = false ∧ c.tcp.fin = false

/-- A concrete incoming SYN packet: peer 10.0.1.1:43210 opening towards
10.0.1.2:8080 with initial sequence number 1000 and window 10. -/
def pkt0 : InPacket :=
  { iph := { payload_len := 20, ttl := 64, protocol := 6
             source := 167837953, destination := 167837954 }
    tcph := { source_port := 43210, destination_port := 8080
              sequence_number := 1000, acknowledgment_number := 0
              window_size := 10
              syn := true, ack := false, fin := false, rst := false }
    payload := [] }

/-- The PCB `accept` builds for `pkt0` (see `accept_pkt0`). -/
def conn0 : Connection :=
  { state := State.SynRecvd
    send := { iss := 0, una := 0, nxt := 1, wnd := 1024, up := false
              wl1 := 0, wl2 := 0 }
    recv := { irs := 1000, nxt := 1001, wnd := 10, up := false }
    tcp := { source_port := 8080, destination_port := 43210
             sequence_number := 0, acknowledgment_number := 1001
             window_size := 1024
             syn := false, ack := true, fin := false, rst := false }
    ip := { payload_len := 0, ttl := 64, protocol := 6
            source := 167837954, destination := 167837953 }
    timers := { send_times := [(0, 0)], srtt := 60 }
    incoming := [], unacked := [], closed := false, closed_at := none }

/-- The SYN|ACK `accept` emits for `pkt0` (see `accept_pkt0`). -/
def seg0 : OutSeg :=
  { source_port := 8080, destination_port := 43210
    seq := 0, ack_num := 1001, window_size := 1024
    syn := true, ack := true, fin := false, rst := false
    payload := [] }

/-- A concrete unacceptable segment for the `conn0` receive space: its
sequence number 5000 lies outside the window `(1000, 1011)`. -/
def badT0 : TcpHeader :=
  { source_port := 43210, destination_port := 8080
    sequence_number := 5000, acknowledgment_number := 0
    window_size := 10, syn := false, ack := true, fin := false
    rst := false }

/-- The PCB `conn0` after the handshake ACK: state Estab with
`send.una = send.nxt = 1`. -/
def cW : Connection :=
  { conn0 with state := State.Estab, send := { conn0.send with una := 1 } }



/-- An acceptable but non-contiguous data segment for `cW`: sequence
number 1005 lies inside the window `(1000, 1011)` but strictly after
`recv.nxt = 1001`. -/
def tGap : TcpHeader :=
  { source_port := 43210, destination_port := 8080
    sequence_number := 1005, acknowledgment_number := 1
    window_size := 10, syn := false, ack := true, fin := false
    rst := false }

/-- An Estab PCB with an empty retransmission queue but a `send_times`
entry at sequence 1, strictly inside the acked span of the next ACK. -/
def cX : Connection :=
  { conn0 with state := State.Estab
               send := { conn0.send with una := 0, nxt := 2, iss := 5 }
               timers := { send_times := [(1, 0)], srtt := 60 } }

/-- A bare in-window ACK for `cX`/`cD` acknowledging up to 2. -/
def tAck2 : TcpHeader :=
  { source_port := 43210, destination_port := 8080
    sequence_number := 1001, acknowledgment_number := 2
    window_size := 10, syn := false, ack := true, fin := false
    rst := false }

/-- An Estab PCB with one unacked byte in flight
(`una = 1`, `nxt = 2`, `unacked = [7]`). -/
def cD : Connection :=
  { conn0 with state := State.Estab
               send := { conn0.send with una := 1, nxt := 2 }
               unacked := [7]
               timers := { send_times := [(1, 0)], srtt := 60 } }

lemma M_pos : 0 < M := by decide

lemma add32_lt (a b : Nat) : add32 a b < M := Nat.mod_lt _ M_pos

lemma sub32_lt (a b : Nat) : sub32 a b < M := Nat.mod_lt _ M_pos

lemma sub32_self (a : Nat) : sub32 a a = 0 := by
  unfold sub32 M
  omega

lemma add32_zero {a : Nat} (ha : a < M) : add32 a 0 = a := by
  unfold add32 M at *
  omega

lemma add32_add32 (a b k : Nat) : add32 (add32 a b) k = add32 a (b + k) := by
  unfold add32 M
  omega

lemma wrapping_lt_irrefl (a : Nat) : wrapping_lt a a = false := by
  unfold wrapping_lt
  rw [sub32_self]
  decide

lemma sub32_shift1 {a b : Nat} (ha : a < M) (hb : b < M) (hx : 0 < sub32 a b) :
    sub32 a (add32 b 1) = sub32 a b - 1 := by
  unfold sub32 add32 M at *
  omega

lemma sub32_add32 {b : Nat} (a k : Nat) (hb : b < M) :
    sub32 (add32 a k) b = (sub32 a b + k) % M := by
  unfold sub32 add32 M at *
  omega

lemma sub32_add32_self {a : Nat} (k : Nat) (ha : a < M) (hk : k < M) :
    sub32 (add32 a k) a = k := by
  unfold sub32 add32 M at *
  omega

/-- The window condition of the cumulative-ACK block: when `ackn` lies
strictly inside `(una, nxt + 1)` and `nxt` runs only a little ahead of
`una`, the acknowledged span `ackn - una` is positive, bounded by
`nxt - una`, and `nxt - ackn` is the leftover. -/
lemma ack_in_window {una nxt ackn : Nat} (h1 : una < M) (h2 : nxt < M)
    (h3 : ackn < M) (hd : sub32 nxt una ≤ 1026)
    (hb : is_between_wrapped una ackn (add32 nxt 1) = true) :
    0 < sub32 ackn una ∧ sub32 ackn una ≤ sub32 nxt una ∧
      sub32 nxt ackn = sub32 nxt una - sub32 ackn una := by
  unfold is_between_wrapped wrapping_lt at hb
  rw [Bool.and_eq_true, decide_eq_true_iff, decide_eq_true_iff] at hb
  obtain ⟨hb1, hb2⟩ := hb
  unfold sub32 add32 M at *
  omega

lemma next_seq_flags (a pb : Nat) (sy fi : Bool) :
    (if fi = true then add32 (if sy = true then add32 (add32 a pb) 1 else add32 a pb) 1
     else (if sy = true then add32 (add32 a pb) 1 else add32 a pb))
    = add32 a (pb + (if sy = true then 1 else 0) + (if fi = true then 1 else 0)) := by
  cases sy <;> cases fi <;> simp [add32_add32]

/-- Everything a successful `Connection::write` call does: it requires
the adjusted offset to stay within `unacked`, and it returns the
connection with the template sequence/ack fields overwritten, the SYN
and FIN flags cleared, `send.nxt` advanced to `next_seq` when
`wrapping_lt` says so, and the send instant recorded; the emitted
segment carries the pre-call template flags and the copied payload. -/
lemma write_some_eq {c : Connection} {now : ℚ} {seq limit : Nat} {c' : Connection}
    {s : OutSeg} (h : c.write now seq limit = some (c', s)) :
    (wOff c seq limit).1 ≤ c.unacked.length ∧
    c' = { c with
            tcp := { c.tcp with
                      sequence_number := seq
                      acknowledgment_number := c.recv.nxt
                      syn := false, fin := false }
            send := { c.send with
                       nxt := if wrapping_lt c.send.nxt (wNext c seq limit)
                              then wNext c seq limit else c.send.nxt }
            timers := { c.timers with
                         send_times := tinsert c.timers.send_times seq now } } ∧
    s = { source_port := c.tcp.source_port
          destination_port := c.tcp.destination_port
          seq := seq, ack_num := c.recv.nxt
          window_size := c.tcp.window_size
          syn := c.tcp.syn, ack := c.tcp.ack, fin := c.tcp.fin, rst := c.tcp.rst
          payload := wPayload c seq limit } := by
  simp only [Connection.write] at h
  rw [Option.ite_none_right_eq_some, Option.some.injEq, Prod.mk.injEq] at h
  obtain ⟨hle, hc', hs⟩ := h
  refine ⟨hle, ?_, ?_⟩
  · rw [← hc']
    rw [next_seq_flags]
    simp only [wNext, wPayload, List.length_take, List.length_drop]
  · rw [← hs]
    simp only [wPayload, List.length_drop]

lemma wOff_snd_zero (c : Connection) (seq : Nat) : (wOff c seq 0).2 = 0 := by
  unfold wOff
  cases c.closed_at with
  | none => rfl
  | some ca => by_cases hsp : seq = add32 ca 1 <;> simp [hsp]

lemma wPayload_le (c : Connection) (seq limit : Nat) :
    (wPayload c seq limit).length ≤ c.unacked.length - (wOff c seq limit).1
      ∧ (wPayload c seq limit).length ≤ (wOff c seq limit).2 := by
  unfold wPayload
  simp only [List.length_take, List.length_drop]
  omega

/-- A `write` call at `seq = send.nxt` with `limit = 0` (the bare-ACK
emissions of `on_packet`) sends an empty payload and, when the template
SYN and FIN flags are clear, leaves the whole send state untouched. -/
lemma write_nxt_zero {c : Connection} {now : ℚ} {c' : Connection} {s : OutSeg}
    (h : c.write now c.send.nxt 0 = some (c', s))
    (h5 : c.tcp.syn = false) (h6 : c.tcp.fin = false) (h2 : c.send.nxt < M) :
    c'.send = c.send ∧ c'.unacked = c.unacked ∧ c'.tcp.syn = false ∧
    c'.tcp.fin = false ∧ c'.tcp.ack = c.tcp.ack ∧ c'.state = c.state ∧
    c'.incoming = c.incoming ∧ c'.closed_at = c.closed_at ∧
    c'.closed = c.closed ∧ c'.recv = c.recv ∧ c'.timers.srtt = c.timers.srtt ∧
    c'.timers.send_times = tinsert c.timers.send_times c.send.nxt now ∧
    s.payload = [] ∧ s.seq = c.send.nxt ∧ s.ack_num = c.recv.nxt ∧
    s.syn = false ∧ s.fin = false ∧ s.ack = c.tcp.ack := by
  obtain ⟨hle, hc', hs⟩ := write_some_eq h
  have hpl : wPayload c c.send.nxt 0 = [] := by
    unfold wPayload
    rw [wOff_snd_zero]
    simp
  have hnx : wNext c c.send.nxt 0 = c.send.nxt := by
    unfold wNext
    rw [hpl, h5, h6]
    simpa using add32_zero h2
  subst hc' hs
  rw [hpl, hnx, h5, h6, wrapping_lt_irrefl]
  simp

lemma accept_none {p : InPacket} {now : ℚ} (hsyn : p.tcph.syn = false) :
    Connection.accept p now = none := by
  unfold Connection.accept
  rw [hsyn]
  rfl

/-- The full postcondition of a successful `accept`: the PCB and the
SYN|ACK segment, field by field.  Note `send.nxt = 1`: the emitted
SYN|ACK consumed one sequence number via `write`. -/
lemma accept_some {p : InPacket} {now : ℚ} {c : Connection} {s : OutSeg}
    (h : Connection.accept p now = some (c, s)) :
    p.tcph.syn = true ∧
    c = { state := State.SynRecvd
          send := { iss := 0, una := 0, nxt := 1, wnd := 1024, up := false,
                    wl1 := 0, wl2 := 0 }
          recv := { irs := p.tcph.sequence_number
                    nxt := add32 p.tcph.sequence_number 1
                    wnd := p.tcph.window_size, up := false }
          tcp := { source_port := p.tcph.destination_port
                   destination_port := p.tcph.source_port
                   sequence_number := 0
                   acknowledgment_number := add32 p.tcph.sequence_number 1
                   window_size := 1024
                   syn := false, ack := true, fin := false, rst := false }
          ip := { payload_len := 0, ttl := 64, protocol := 6
                  source := p.iph.destination, destination := p.iph.source }
          timers := { send_times := [(0, now)], srtt := 60 }
          incoming := [], unacked := [], closed := false, closed_at := none } ∧
    s = { source_port := p.tcph.destination_port
          destination_port := p.tcph.source_port
          seq := 0, ack_num := add32 p.tcph.sequence_number 1
          window_size := 1024
          syn := true, ack := true, fin := false, rst := false
          payload := [] } := by
  by_cases hsyn : p.tcph.syn = true
  · refine ⟨hsyn, ?_⟩
    unfold Connection.accept at h
    rw [hsyn] at h
    simp only [Bool.not_true, Bool.false_eq_true, if_false] at h
    obtain ⟨hle, hc, hs⟩ := write_some_eq h
    subst hc hs
    constructor
    · congr 1 <;>
        simp [wNext, wPayload, wOff, sub32, add32, M, tinsert, wrapping_lt]
    · simp [wPayload, wOff, sub32, M]
  · rw [accept_none (by simpa using hsyn)] at h
    exact absurd h (by simp)

lemma ack_update_inv {c : Connection} {ackn : Nat} {now : ℚ} (hI : Inv c)
    (ha : ackn < M) : Inv (ack_update c ackn now) := by
  obtain ⟨h1, h2, h3, h4, h5, h6⟩ := hI
  unfold ack_update
  split
  case isTrue hcond =>
    obtain ⟨hst, hb⟩ := hcond
    obtain ⟨hx0, hxd, hnd⟩ := ack_in_window h1 h2 ha (by omega) hb
    split
    case isTrue hemp =>
      exact ⟨ha, h2, by simpa [hnd] using by omega, h4, h5, h6⟩
    case isFalse hemp =>
      refine ⟨ha, h2, ?_, ?_, h5, h6⟩
      · simp only [List.length_drop]
        split
        case isTrue hiss =>
          rw [sub32_shift1 ha h1 hx0]
          omega
        case isFalse hiss =>
          omega
      · simp only [List.length_drop]
        omega
  case isFalse =>
    exact ⟨h1, h2, h3, h4, h5, h6⟩

lemma Inv_estab_transition {c : Connection} {ackn : Nat} (hI : Inv c) :
    Inv (estab_transition c ackn) := by
  unfold estab_transition
  split <;> exact hI

lemma Inv_finwait_check {c : Connection} (hI : Inv c) :
    Inv (finwait_check c) := by
  unfold finwait_check
  split
  case isTrue =>
    cases c.closed_at with
    | none => exact hI
    | some ca => by_cases hsp : c.send.una = add32 ca 1 <;> simp [hsp] <;> exact hI
  case isFalse => exact hI

lemma data_delivery_pres {c : Connection} {seqn : Nat} {payload : List Nat}
    {now : ℚ} {c4 : Connection} {segs : List OutSeg} (hI : Inv c)
    (h : data_delivery c seqn payload now = some (c4, segs)) :
    Inv c4 ∧ c4.send = c.send ∧ c4.unacked = c.unacked ∧
      c4.closed_at = c.closed_at := by
  obtain ⟨h1, h2, h3, h4, h5, h6⟩ := hI
  simp only [data_delivery] at h
  split at h
  case isTrue =>
    simp only [Option.some.injEq, Prod.mk.injEq] at h
    obtain ⟨hc, _⟩ := h
    subst hc
    exact ⟨⟨h1, h2, h3, h4, h5, h6⟩, rfl, rfl, rfl⟩
  case isFalse =>
    split at h
    case isTrue =>
      split at h
      case h_1 => exact absurd h (by simp)
      case h_2 unread hu =>
        split at h
        case h_1 => exact absurd h (by simp)
        case h_2 c2 s hw =>
          simp only [Option.some.injEq, Prod.mk.injEq] at h
          obtain ⟨hc, _⟩ := h
          subst hc
          obtain ⟨hsend, hun, hsy, hfi, _, _, _, hca, _⟩ :=
            write_nxt_zero hw h5 h6 h2
          refine ⟨⟨?_, ?_, ?_, ?_, hsy, hfi⟩, ?_, ?_, ?_⟩
          · rw [hsend]; exact h1
          · rw [hsend]; exact h2
          · rw [hsend, hun]; exact h3
          · rw [hun]; exact h4
          · rw [hsend]
          · rw [hun]
          · rw [hca]
    case isFalse =>
      simp only [Option.some.injEq, Prod.mk.injEq] at h
      obtain ⟨hc, _⟩ := h
      subst hc
      exact ⟨⟨h1, h2, h3, h4, h5, h6⟩, rfl, rfl, rfl⟩

lemma fin_step_pres {c : Connection} {fin : Bool} {now : ℚ} {c5 : Connection}
    {segs : List OutSeg} (hI : Inv c)
    (h : fin_step c fin now = some (c5, segs)) :
    Inv c5 ∧ c5.send = c.send ∧ c5.unacked = c.unacked := by
  obtain ⟨h1, h2, h3, h4, h5, h6⟩ := hI
  simp only [fin_step] at h
  split at h
  case isTrue =>
    simp only [Option.some.injEq, Prod.mk.injEq] at h
    obtain ⟨hc, _⟩ := h
    subst hc
    exact ⟨⟨h1, h2, h3, h4, h5, h6⟩, rfl, rfl⟩
  case isFalse =>
    split at h
    case h_1 =>
      split at h
      case h_1 => exact absurd h (by simp)
      case h_2 c2 s hw =>
        simp only [Option.some.injEq, Prod.mk.injEq] at h
        obtain ⟨hc, _⟩ := h
        subst hc
        obtain ⟨hsend, hun, hsy, hfi, _⟩ := write_nxt_zero hw h5 h6 h2
        refine ⟨⟨?_, ?_, ?_, ?_, hsy, hfi⟩, ?_, ?_⟩
        · rw [hsend]; exact h1
        · rw [hsend]; exact h2
        · rw [hsend, hun]; exact h3
        · rw [hun]; exact h4
        · rw [hsend]
        · rw [hun]
    case h_2 => exact absurd h (by simp)


lemma on_packet_inv {c : Connection} {tcph : TcpHeader} {payload : List Nat}
    {now : ℚ} {c' : Connection} {segs : List OutSeg} {a : Available}
    (hI : Inv c) (ha : tcph.acknowledgment_number < M)
    (h : c.on_packet tcph payload now = some (c', segs, a)) : Inv c' := by
  obtain ⟨h1, h2, h3, h4, h5, h6⟩ := hI
  simp only [Connection.on_packet] at h
  set fi := (if tcph.fin = true then (1 : Nat) else 0) with hfi
  set sy := (if tcph.syn = true then (1 : Nat) else 0) with hsy0
  split at h
  case isTrue =>
    split at h
    case h_1 => exact absurd h (by simp)
    case h_2 c1 s hw =>
      simp only [Option.some.injEq, Prod.mk.injEq] at h
      obtain ⟨hc, _⟩ := h
      subst hc
      obtain ⟨hsend, hun, hsy, hfi, _⟩ := write_nxt_zero hw h5 h6 h2
      exact ⟨by rw [hsend]; exact h1, by rw [hsend]; exact h2,
        by rw [hsend, hun]; exact h3, by rw [hun]; exact h4, hsy, hfi⟩
  case isFalse =>
    split at h
    case isTrue =>
      split at h
      case isTrue =>
        split at h
        case isTrue =>
          simp only [Option.some.injEq, Prod.mk.injEq] at h
          obtain ⟨hc, _⟩ := h
          subst hc
          exact ⟨h1, h2, h3, h4, h5, h6⟩
        case isFalse => exact absurd h (by simp)
      case isFalse =>
        simp only [Option.some.injEq, Prod.mk.injEq] at h
        obtain ⟨hc, _⟩ := h
        subst hc
        exact ⟨h1, h2, h3, h4, h5, h6⟩
    case isFalse =>
      split at h
      case h_1 => exact absurd h (by simp)
      case h_2 c4 segs1 hdd =>
        split at h
        case h_1 => exact absurd h (by simp)
        case h_2 c5 segs2 hfs =>
          simp only [Option.some.injEq, Prod.mk.injEq] at h
          obtain ⟨hc, _⟩ := h
          subst hc
          have hI3 : Inv (finwait_check (ack_update
              (estab_transition c tcph.acknowledgment_number)
              tcph.acknowledgment_number now)) :=
            Inv_finwait_check (ack_update_inv
              (Inv_estab_transition ⟨h1, h2, h3, h4, h5, h6⟩) ha)
          obtain ⟨hI4, _, _, _⟩ := data_delivery_pres hI3 hdd
          obtain ⟨hI5, _, _⟩ := fin_step_pres hI4 hfs
          exact hI5



lemma wOff_cases (c : Connection) (seq limit : Nat) :
    ((wOff c seq limit).1 = sub32 seq c.send.una ∧ (wOff c seq limit).2 = limit)
      ∨ wOff c seq limit = (0, 0) := by
  unfold wOff
  cases c.closed_at with
  | none => exact Or.inl ⟨rfl, rfl⟩
  | some ca =>
    by_cases hsp : seq = add32 ca 1
    · exact Or.inr (by simp [hsp])
    · exact Or.inl (by simp [hsp])

/-- A completed `write` at `seq = send.una` (the retransmit path)
preserves the send-space invariant. -/
lemma write_una_pres {c : Connection} {now : ℚ} {limit : Nat} {c' : Connection}
    {s : OutSeg} (h : c.write now c.send.una limit = some (c', s))
    (h1 : c.send.una < M) (h2 : c.send.nxt < M)
    (h3 : sub32 c.send.nxt c.send.una ≤ c.unacked.length + 2)
    (h4 : c.unacked.length ≤ 1024) (h5 : c.tcp.syn = false) : Inv c' := by
  obtain ⟨hle, hc', hs⟩ := write_some_eq h
  have hpb := (wPayload_le c c.send.una limit).1
  have hk : (wPayload c c.send.una limit).length
      + (if c.tcp.syn = true then (1 : Nat) else 0)
      + (if c.tcp.fin = true then (1 : Nat) else 0)
      ≤ c.unacked.length + 2 := by
    rw [h5]
    norm_num
    split <;> omega
  have hg2 : (if wrapping_lt c.send.nxt (wNext c c.send.una limit)
      then wNext c c.send.una limit else c.send.nxt) < M := by
    split
    · exact add32_lt _ _
    · exact h2
  have hg3 : sub32 (if wrapping_lt c.send.nxt (wNext c c.send.una limit)
      then wNext c c.send.una limit else c.send.nxt) c.send.una
      ≤ c.unacked.length + 2 := by
    split
    case isTrue hlt =>
      unfold wNext
      rw [sub32_add32_self _ h1 (by have := h4; unfold M at *; omega)]
      exact hk
    case isFalse hlt => exact h3
  subst hc'
  exact ⟨h1, hg2, hg3, h4, rfl, rfl⟩

/-- A completed `write` at `seq = send.nxt` (the fresh-send and bare-ACK
paths) preserves the send-space invariant, provided the FIN flag is only
set when the in-flight span is inside `unacked` (which the fresh-send
path guarantees through its underflow check). -/
lemma write_nxt_pres {c : Connection} {now : ℚ} {limit : Nat} {c' : Connection}
    {s : OutSeg} (h : c.write now c.send.nxt limit = some (c', s))
    (h1 : c.send.una < M) (h2 : c.send.nxt < M)
    (h3 : sub32 c.send.nxt c.send.una ≤ c.unacked.length + 2)
    (h4 : c.unacked.length ≤ 1024) (h5 : c.tcp.syn = false)
    (hfd : c.tcp.fin = true →
      sub32 c.send.nxt c.send.una ≤ c.unacked.length) : Inv c' := by
  obtain ⟨hle, hc', hs⟩ := write_some_eq h
  have hpb := wPayload_le c c.send.nxt limit
  have hkd : sub32 c.send.nxt c.send.una + ((wPayload c c.send.nxt limit).length
      + (if c.tcp.syn = true then (1 : Nat) else 0)
      + (if c.tcp.fin = true then (1 : Nat) else 0))
      ≤ c.unacked.length + 2 := by
    rw [h5]
    norm_num
    rcases wOff_cases c c.send.nxt limit with ⟨ho1, ho2⟩ | hsp
    · rw [ho1] at hle hpb
      cases hft : c.tcp.fin
      · norm_num [hft]
        omega
      · have hfd2 := hfd hft
        norm_num [hft]
        omega
    · simp only [hsp] at hpb
      cases hft : c.tcp.fin
      · norm_num [hft]
        omega
      · have hfd2 := hfd hft
        norm_num [hft]
        omega
  have hg2 : (if wrapping_lt c.send.nxt (wNext c c.send.nxt limit)
      then wNext c c.send.nxt limit else c.send.nxt) < M := by
    split
    · exact add32_lt _ _
    · exact h2
  have hg3 : sub32 (if wrapping_lt c.send.nxt (wNext c c.send.nxt limit)
      then wNext c c.send.nxt limit else c.send.nxt) c.send.una
      ≤ c.unacked.length + 2 := by
    split
    case isTrue hlt =>
      unfold wNext
      rw [sub32_add32 _ _ h1, Nat.mod_eq_of_lt
        (by have := h4; have := hpb; unfold M at *; omega)]
      exact hkd
    case isFalse hlt => exact h3
  subst hc'
  exact ⟨h1, hg2, hg3, h4, rfl, rfl⟩



lemma on_tick_inv {c : Connection} {now : ℚ} {c' : Connection}
    {segs : List OutSeg} (hI : Inv c) (h : c.on_tick now = some (c', segs)) :
    Inv c' := by
  obtain ⟨h1, h2, h3, h4, h5, h6⟩ := hI
  simp only [Connection.on_tick] at h
  split at h
  case isTrue =>
    simp only [Option.some.injEq, Prod.mk.injEq] at h
    obtain ⟨hc, _⟩ := h
    subst hc
    exact ⟨h1, h2, h3, h4, h5, h6⟩
  case isFalse hst =>
    split at h
    case isTrue => exact absurd h (by simp)
    case isFalse hun =>
      split at h
      case isTrue hrt =>
        split at h
        case h_1 => exact absurd h (by simp)
        case h_2 c2 s hw =>
          simp only [Option.some.injEq, Prod.mk.injEq] at h
          obtain ⟨hc, _⟩ := h
          subst hc
          split at hw
          case isTrue hcl => exact write_una_pres hw h1 h2 h3 h4 h5
          case isFalse hcl => exact write_una_pres hw h1 h2 h3 h4 h5
      case isFalse hrt =>
        split at h
        case isTrue =>
          simp only [Option.some.injEq, Prod.mk.injEq] at h
          obtain ⟨hc, _⟩ := h
          subst hc
          exact ⟨h1, h2, h3, h4, h5, h6⟩
        case isFalse =>
          split at h
          case isTrue => exact absurd h (by simp)
          case isFalse hwd =>
            split at h
            case isTrue =>
              simp only [Option.some.injEq, Prod.mk.injEq] at h
              obtain ⟨hc, _⟩ := h
              subst hc
              exact ⟨h1, h2, h3, h4, h5, h6⟩
            case isFalse hal =>
              split at h
              case h_1 => exact absurd h (by simp)
              case h_2 c2 s hw =>
                simp only [Option.some.injEq, Prod.mk.injEq] at h
                obtain ⟨hc, _⟩ := h
                subst hc
                split at hw
                case isTrue hcl =>
                  obtain ⟨hsl, hcld, hnone⟩ := hcl
                  rw [Option.isNone_iff_eq_none] at hnone
                  rw [hnone] at hun
                  simp only [Option.getD_none] at hun
                  refine write_nxt_pres hw h1 h2 h3 h4 h5 (fun _ => ?_)
                  show sub32 c.send.nxt c.send.una ≤ c.unacked.length
                  omega
                case isFalse hcl =>
                  exact write_nxt_pres hw h1 h2 h3 h4 h5
                    (fun hf => absurd hf (by rw [h6]; simp))



lemma close_inv {c : Connection} (hI : Inv c) : Inv (Connection.close c).1 := by
  unfold Connection.close
  cases c.state <;> exact hI

lemma streamWrite_inv {c : Connection} {buf : List Nat} {c' : Connection}
    {r : Except IoErr Nat} {segs : List OutSeg} (hI : Inv c)
    (h : streamWrite (some c) buf = (some c', r, segs)) : Inv c' := by
  obtain ⟨h1, h2, h3, h4, h5, h6⟩ := hI
  simp only [streamWrite] at h
  split at h
  case isTrue =>
    simp only [Prod.mk.injEq, Option.some.injEq] at h
    obtain ⟨hc, _⟩ := h
    subst hc
    exact ⟨h1, h2, h3, h4, h5, h6⟩
  case isFalse hlen =>
    simp only [Prod.mk.injEq, Option.some.injEq] at h
    obtain ⟨hc, _⟩ := h
    subst hc
    refine ⟨h1, h2, ?_, ?_, h5, h6⟩
    · simp only [List.length_append, List.length_take]
      omega
    · simp only [List.length_append, List.length_take]
      unfold SENDQUEUE_SIZE at *
      omega

lemma accept_inv {p : InPacket} {now : ℚ} {c : Connection} {s : OutSeg}
    (h : Connection.accept p now = some (c, s)) : Inv c := by
  obtain ⟨_, hc, _⟩ := accept_some h
  subst hc
  refine ⟨?_, ?_, ?_, ?_, rfl, rfl⟩
  · show (0 : Nat) < M
    decide
  · show (1 : Nat) < M
    decide
  · show sub32 1 0 ≤ ([] : List Nat).length + 2
    decide
  · show ([] : List Nat).length ≤ 1024
    decide

/-- Every reachable PCB satisfies the send-space invariant. -/
lemma Reach_Inv {c : Connection} (h : Reach c) : Inv c := by
  induction h with
  | start hacc => exact accept_inv hacc
  | pkt _ ha hp ih => exact on_packet_inv ih ha hp
  | tick _ ht ih => exact on_tick_inv ih ht
  | app_close _ ih => exact close_inv ih
  | app_write _ hw ih => exact streamWrite_inv ih hw




lemma wPayload_zero (c : Connection) (seq : Nat) : wPayload c seq 0 = [] := by
  unfold wPayload
  rw [wOff_snd_zero]
  simp

lemma estab_transition_eq_of_ne {c : Connection} {ackn : Nat}
    (h : c.state ≠ State.SynRecvd) : estab_transition c ackn = c := by
  unfold estab_transition
  rw [if_neg]
  rintro ⟨h1, _⟩
  exact h h1

lemma ack_update_fields (c : Connection) (ackn : Nat) (now : ℚ) :
    (ack_update c ackn now).state = c.state ∧
    (ack_update c ackn now).recv = c.recv ∧
    (ack_update c ackn now).incoming = c.incoming ∧
    (ack_update c ackn now).closed_at = c.closed_at ∧
    (ack_update c ackn now).tcp = c.tcp ∧
    (ack_update c ackn now).send.nxt = c.send.nxt := by
  unfold ack_update
  split
  · split <;> exact ⟨rfl, rfl, rfl, rfl, rfl, rfl⟩
  · exact ⟨rfl, rfl, rfl, rfl, rfl, rfl⟩

lemma finwait_check_fields (c : Connection) :
    ((finwait_check c).state = c.state ∨ (finwait_check c).state = State.FinWait2) ∧
    (finwait_check c).recv = c.recv ∧
    (finwait_check c).send = c.send ∧
    (finwait_check c).unacked = c.unacked ∧
    (finwait_check c).timers = c.timers ∧
    (finwait_check c).incoming = c.incoming ∧
    (finwait_check c).tcp = c.tcp := by
  unfold finwait_check
  split
  case isTrue =>
    split
    case h_1 ca =>
      split
      case isTrue => exact ⟨Or.inr rfl, rfl, rfl, rfl, rfl, rfl, rfl⟩
      case isFalse => exact ⟨Or.inl rfl, rfl, rfl, rfl, rfl, rfl, rfl⟩
    case h_2 => exact ⟨Or.inl rfl, rfl, rfl, rfl, rfl, rfl, rfl⟩
  case isFalse => exact ⟨Or.inl rfl, rfl, rfl, rfl, rfl, rfl, rfl⟩

lemma foldl_filter_pair (p : Nat × ℚ → Bool) (f : ℚ → Nat × ℚ → ℚ) :
    ∀ (l acc : List (Nat × ℚ)) (s : ℚ),
    l.foldl (fun a e => if p e then (a.1, f a.2 e) else (a.1 ++ [e], a.2)) (acc, s)
      = (acc ++ l.filter (fun e => !p e), (l.filter p).foldl f s)
  | [], acc, s => by simp
  | e :: t, acc, s => by
    by_cases hp : p e <;>
      simp [hp, foldl_filter_pair p f t] <;>
      simp [List.append_assoc]



/-- Full characterization of the cumulative-ACK block when it fires:
`send.una` becomes `ackn`; `min(ackn − data_start, len)` bytes are
drained from the head of `unacked` (vacuously zero when `unacked` is
empty); and the `send_times` rebuild with its per-entry srtt updates
happens only when `unacked` is non-empty. -/
lemma ack_update_spec {c : Connection} {ackn : Nat} {now : ℚ}
    (hst : c.state = State.Estab ∨ c.state = State.FinWait1
      ∨ c.state = State.FinWait2)
    (hb : is_between_wrapped c.send.una ackn (add32 c.send.nxt 1) = true) :
    (ack_update c ackn now).send.una = ackn ∧
    (ack_update c ackn now).unacked = c.unacked.drop
      (min (sub32 ackn (if c.send.una = c.send.iss then add32 c.send.una 1
        else c.send.una)) c.unacked.length) ∧
    (c.unacked = [] → (ack_update c ackn now).timers = c.timers) ∧
    (c.unacked ≠ [] →
      (ack_update c ackn now).timers.send_times =
        c.timers.send_times.filter
          (fun e => !is_between_wrapped c.send.una e.1 ackn) ∧
      (ack_update c ackn now).timers.srtt =
        (c.timers.send_times.filter
          (fun e => is_between_wrapped c.send.una e.1 ackn)).foldl
          (fun s e => 4 / 5 * s + 1 / 5 * (now - e.2)) c.timers.srtt) := by
  unfold ack_update
  rw [if_pos ⟨hst, hb⟩]
  by_cases hemp : c.unacked.isEmpty
  · rw [if_pos hemp]
    rw [List.isEmpty_iff] at hemp
    refine ⟨rfl, ?_, fun _ => rfl, fun hne => absurd hemp hne⟩
    rw [hemp]
    simp
  · rw [if_neg hemp]
    have hne : c.unacked ≠ [] := by simpa using hemp
    dsimp only
    refine ⟨rfl, rfl, fun h0 => absurd h0 hne, fun _ => ?_⟩
    have hfp := foldl_filter_pair
      (fun e => is_between_wrapped c.send.una e.1 ackn)
      (fun s e => 4 / 5 * s + 1 / 5 * (now - e.2))
      c.timers.send_times [] c.timers.srtt
    rw [hfp]
    exact ⟨by simp, rfl⟩




lemma accept_pkt0 : Connection.accept pkt0 0 = some (conn0, seg0) := by decide

/-- Claim C6: for every PCB created by `accept` and mutated by any
sequence of `on_packet`, `on_tick`, `close` and application writes to
`unacked`, the invariant `¬ lt(send.nxt, send.una)` holds:
`send.una ≤ send.nxt` under the modulo-2^32 sequence order. -/
theorem claim_C6 (c : Connection) (h : Reach c) :
    wrapping_lt c.send.nxt c.send.una = false := by
  obtain ⟨h1, h2, h3, h4, _, _⟩ := Reach_Inv h
  unfold wrapping_lt
  rw [decide_eq_false_iff_not]
  unfold M at *
  omega

/-- Witness for C6 at the PCB that `accept` builds for `pkt0`. -/
theorem claim_C6_witness :
    wrapping_lt conn0.send.nxt conn0.send.una = false :=
  claim_C6 conn0 (Reach.start accept_pkt0)

/-- Claim C9 (refuted: the code panics).  The bare-ACK emission
`write(nic, send.nxt, 0)` performed while the PCB is still in SynRecvd
computes `offset = send.nxt - send.una = 1 > len(unacked) = 0`, so the
slice skip indexes out of bounds and the source panics (modelled as
`none`): an unacceptable segment arriving right after the handshake's
SYN|ACK crashes `on_packet`.  `badT0` is such a segment (its sequence
number 5000 lies outside the receive window `(1000, 1011)`). -/
theorem claim_C9 :
    Connection.accept pkt0 0 = some (conn0, seg0) ∧
    seg_okay conn0.recv.nxt conn0.recv.wnd 5000 0 = false ∧
    sub32 conn0.send.nxt conn0.send.una = 1 ∧
    conn0.unacked.length = 0 ∧
    Connection.on_packet conn0 badT0 [] 0 = none :=
  ⟨accept_pkt0, by decide, by decide, rfl, by decide⟩

/-- Claim C10 (refuted: the code panics).  On a PCB still in SynRecvd
after the SYN|ACK, `nunacked = send.nxt - send.una = 1` exceeds
`len(unacked) = 0`, so the very first tick's
`unacked.len() as u32 - nunacked_data` underflows (a panic in debug
builds, modelled as `none`). -/
theorem claim_C10 :
    Connection.accept pkt0 0 = some (conn0, seg0) ∧
    conn0.unacked.length <
      sub32 (conn0.closed_at.getD conn0.send.nxt) conn0.send.una ∧
    Connection.on_tick conn0 1 = none :=
  ⟨accept_pkt0, by decide, by decide⟩



/-- Claim C1: with `slen = len(payload) + fin + syn`, the acceptability
decision follows the four-case RFC 793 test (zero-window equality test,
exclusive window membership of the left edge for empty segments, outright
rejection of data against a zero window, and left-or-right-edge window
membership otherwise); and on every unacceptable segment that `on_packet`
finishes handling, exactly one bare ACK carrying the current `send.nxt`
and `recv.nxt` is emitted and the current availability is returned. -/
theorem claim_C1 (c : Connection) (tcph : TcpHeader) (payload : List Nat)
    (now : ℚ) (hsyn : c.tcp.syn = false) (hfin : c.tcp.fin = false) :
    ((payload.length + (if tcph.fin then 1 else 0)
        + (if tcph.syn then 1 else 0) = 0 ∧ c.recv.wnd = 0) →
      (seg_okay c.recv.nxt c.recv.wnd tcph.sequence_number
          (payload.length + (if tcph.fin then 1 else 0)
            + (if tcph.syn then 1 else 0)) = true
        ↔ tcph.sequence_number = c.recv.nxt)) ∧
    ((payload.length + (if tcph.fin then 1 else 0)
        + (if tcph.syn then 1 else 0) = 0 ∧ 0 < c.recv.wnd) →
      (seg_okay c.recv.nxt c.recv.wnd tcph.sequence_number
          (payload.length + (if tcph.fin then 1 else 0)
            + (if tcph.syn then 1 else 0)) = true
        ↔ is_between_wrapped (sub32 c.recv.nxt 1) tcph.sequence_number
            (add32 c.recv.nxt c.recv.wnd) = true)) ∧
    ((0 < payload.length + (if tcph.fin then 1 else 0)
        + (if tcph.syn then 1 else 0) ∧ c.recv.wnd = 0) →
      seg_okay c.recv.nxt c.recv.wnd tcph.sequence_number
        (payload.length + (if tcph.fin then 1 else 0)
          + (if tcph.syn then 1 else 0)) = false) ∧
    ((0 < payload.length + (if tcph.fin then 1 else 0)
        + (if tcph.syn then 1 else 0) ∧ 0 < c.recv.wnd) →
      (seg_okay c.recv.nxt c.recv.wnd tcph.sequence_number
          (payload.length + (if tcph.fin then 1 else 0)
            + (if tcph.syn then 1 else 0)) = true
        ↔ (is_between_wrapped (sub32 c.recv.nxt 1) tcph.sequence_number
             (add32 c.recv.nxt c.recv.wnd) = true ∨
           is_between_wrapped (sub32 c.recv.nxt 1)
             (add32 tcph.sequence_number
               (payload.length + (if tcph.fin then 1 else 0)
                 + (if tcph.syn then 1 else 0) - 1))
             (add32 c.recv.nxt c.recv.wnd) = true))) ∧
    (seg_okay c.recv.nxt c.recv.wnd tcph.sequence_number
        (payload.length + (if tcph.fin then 1 else 0)
          + (if tcph.syn then 1 else 0)) = false →
      ∀ c' segs a, c.on_packet tcph payload now = some (c', segs, a) →
        segs = [{ source_port := c.tcp.source_port
                  destination_port := c.tcp.destination_port
                  seq := c.send.nxt, ack_num := c.recv.nxt
                  window_size := c.tcp.window_size
                  syn := false, ack := c.tcp.ack, fin := false
                  rst := c.tcp.rst, payload := [] }] ∧
        a = c.availability) := by
  refine ⟨?_, ?_, ?_, ?_, ?_⟩
  · rintro ⟨hs0, hw0⟩
    unfold seg_okay
    rw [if_pos hs0, if_pos hw0]
    simp
  · rintro ⟨hs0, hw0⟩
    unfold seg_okay
    rw [if_pos hs0, if_neg (by omega)]
  · rintro ⟨hs0, hw0⟩
    unfold seg_okay
    rw [if_neg (by omega), if_pos hw0]
  · rintro ⟨hs0, hw0⟩
    unfold seg_okay
    rw [if_neg (by omega), if_neg (by omega)]
    simp
  · intro hok c' segs a h
    simp only [Connection.on_packet, hok, Bool.not_false, if_true] at h
    split at h
    case h_1 => exact absurd h (by simp)
    case h_2 c1 s hw =>
      simp only [Option.some.injEq, Prod.mk.injEq] at h
      obtain ⟨hc1, hsegs, ha⟩ := h
      obtain ⟨hle, hc', hs⟩ := write_some_eq hw
      subst hc1 hc'
      constructor
      · rw [← hsegs, hs, wPayload_zero, hsyn, hfin]
      · rw [← ha]
        rfl


/-- Witness for C1: in Estab with `send.una = send.nxt = 1` and
`recv.nxt = 1001`, the out-of-window segment `badT0` is judged
unacceptable and a single bare ACK `(seq 1, ack 1001)` is emitted, with
the current availability returned. -/
theorem claim_C1_witness :
    cW.tcp.syn = false ∧
    seg_okay cW.recv.nxt cW.recv.wnd badT0.sequence_number 0 = false ∧
    (Connection.on_packet cW badT0 [] 0).map (fun r => (r.2.1, r.2.2)) =
      some ([{ source_port := 8080, destination_port := 43210
               seq := 1, ack_num := 1001, window_size := 1024
               syn := false, ack := true, fin := false, rst := false
               payload := [] }], cW.availability) := by
  refine ⟨rfl, by decide, ?_⟩
  rcases hop : Connection.on_packet cW badT0 [] 0 with _ | ⟨c', segs, a⟩
  · exact absurd hop (by decide)
  · obtain ⟨hsegs, ha⟩ :=
      (claim_C1 cW badT0 [] 0 rfl rfl).2.2.2.2 (by decide) c' segs a hop
    rw [hsegs, ha]
    rfl

/-- Claim C3 as stated is false: a segment whose right edge equals
`recv.nxt + recv.wnd` IS accepted whenever its left edge lies strictly
inside the window.  Concretely, with `recv.nxt = 100`, `recv.wnd = 10`,
a segment at `seq = 105` with `slen = 6` has right edge
`105 + 5 = 110 = recv.nxt + recv.wnd` yet is judged acceptable. -/
theorem claim_C3_counterexample :
    0 < 6 ∧ 0 < 10 ∧ add32 105 (6 - 1) = add32 100 10 ∧
    seg_okay 100 10 105 6 = true := by decide

/-- Claim C3, amended: for a segment with `slen > 0`, `recv.wnd > 0` and
right edge exactly `recv.nxt + recv.wnd`, the right-edge membership test
rejects (the upper bound is exclusive), so the segment is acceptable iff
its left edge `seq` lies strictly inside
`(recv.nxt - 1, recv.nxt + recv.wnd)`. -/
theorem claim_C3 (rnxt rwnd seqn slen : Nat) (h0 : 0 < slen) (h1 : 0 < rwnd)
    (hre : add32 seqn (slen - 1) = add32 rnxt rwnd) :
    seg_okay rnxt rwnd seqn slen =
      is_between_wrapped (sub32 rnxt 1) seqn (add32 rnxt rwnd) := by
  unfold seg_okay
  rw [if_neg (by omega), if_neg (by omega), hre]
  have hr : is_between_wrapped (sub32 rnxt 1) (add32 rnxt rwnd)
      (add32 rnxt rwnd) = false := by
    unfold is_between_wrapped
    rw [wrapping_lt_irrefl]
    simp
  rw [hr]
  simp

/-- Witness for C3 at the counterexample's numbers. -/
theorem claim_C3_witness :
    seg_okay 100 10 105 6 =
      is_between_wrapped (sub32 100 1) 105 (add32 100 10) :=
  claim_C3 100 10 105 6 (by decide) (by decide) (by decide)



lemma accept_isSome {p : InPacket} {now : ℚ} (hsyn : p.tcph.syn = true) :
    (Connection.accept p now).isSome = true := by
  unfold Connection.accept
  rw [hsyn]
  simp only [Bool.not_true, Bool.false_eq_true, if_false]
  unfold Connection.write wOff
  norm_num [sub32, M]

/-- Claim C4 as stated is false: the returned PCB has
`send.nxt = 1 ≠ 0 = iss`, because the emitted SYN|ACK already consumed
one sequence number inside `write`. -/
theorem claim_C4_counterexample :
    (Connection.accept pkt0 0).map (fun pr => (pr.1.send.nxt, pr.1.send.iss))
      = some (1, 0) ∧ (1 : Nat) ≠ 0 := by
  rw [accept_pkt0]
  exact ⟨rfl, by decide⟩

/-- Claim C4, amended: `accept` returns no PCB and emits nothing when SYN
is unset; on a SYN it returns a SynRecvd PCB with `iss = 0`,
`send.una = iss`, `send.nxt = iss + 1` (the SYN|ACK emission consumed one
sequence number), `send.wnd = 1024`, `recv.irs = tcph.seq`,
`recv.nxt = tcph.seq + 1`, `recv.wnd = tcph.window`, swapped
addresses/ports, TTL 64, protocol TCP, and emits exactly one SYN|ACK with
sequence `iss` and ack `recv.nxt`. -/
theorem claim_C4 (p : InPacket) (now : ℚ) :
    (p.tcph.syn = false → Connection.accept p now = none) ∧
    (p.tcph.syn = true → (Connection.accept p now).isSome = true) ∧
    (∀ c s, Connection.accept p now = some (c, s) →
      p.tcph.syn = true ∧
      c.state = State.SynRecvd ∧ c.send.iss = 0 ∧ c.send.una = c.send.iss ∧
      c.send.nxt = add32 c.send.iss 1 ∧ c.send.wnd = 1024 ∧
      c.recv.irs = p.tcph.sequence_number ∧
      c.recv.nxt = add32 p.tcph.sequence_number 1 ∧
      c.recv.wnd = p.tcph.window_size ∧
      c.tcp.source_port = p.tcph.destination_port ∧
      c.tcp.destination_port = p.tcph.source_port ∧
      c.ip.source = p.iph.destination ∧ c.ip.destination = p.iph.source ∧
      c.ip.ttl = 64 ∧ c.ip.protocol = 6 ∧
      s.syn = true ∧ s.ack = true ∧ s.seq = c.send.iss ∧
      s.ack_num = c.recv.nxt ∧ s.payload = []) := by
  refine ⟨fun hsyn => accept_none hsyn, fun hsyn => accept_isSome hsyn, ?_⟩
  intro c s h
  obtain ⟨hsyn, hc, hs⟩ := accept_some h
  subst hc hs
  exact ⟨hsyn, rfl, rfl, rfl, rfl, rfl, rfl, rfl, rfl, rfl, rfl, rfl, rfl,
    rfl, rfl, rfl, rfl, rfl, rfl, rfl⟩

/-- Witness for C4 at the concrete SYN packet `pkt0`. -/
theorem claim_C4_witness :
    conn0.state = State.SynRecvd ∧ conn0.send.iss = 0 ∧
    conn0.send.una = conn0.send.iss ∧
    conn0.send.nxt = add32 conn0.send.iss 1 ∧ conn0.send.wnd = 1024 ∧
    seg0.syn = true ∧ seg0.ack = true ∧ seg0.seq = conn0.send.iss ∧
    seg0.ack_num = conn0.recv.nxt ∧ seg0.payload = [] := by
  obtain ⟨-, -, -, -, h5, h6, -, -, -, -, -, -, -, -, -, h16, h17, h18, h19,
    h20⟩ := (claim_C4 pkt0 0).2.2 conn0 seg0 accept_pkt0
  exact ⟨by decide, by decide, by decide, h5, h6, h16, h17, h18, h19, h20⟩



/-- Claim C2 as stated is false: an acceptable segment with a non-empty
payload whose sequence number lies strictly after `recv.nxt` does NOT get
dropped after an echoed ACK — `on_packet` panics on the
`assert_eq!(unread_data_at, data.len() + 1)` clamp and emits nothing. -/
theorem claim_C2_counterexample :
    cW.state = State.Estab ∧ tGap.ack = true ∧
    seg_okay cW.recv.nxt cW.recv.wnd tGap.sequence_number 1 = true ∧
    wrapping_lt cW.recv.nxt tGap.sequence_number = true ∧
    Connection.on_packet cW tGap [7] 0 = none := by decide

/-- Claim C2, amended: in Estab/FinWait1/FinWait2, a segment that passes
the acceptability check, carries a non-empty payload (of realistic size,
below 2^31 bytes) and whose sequence number lies strictly after
`recv.nxt` makes `on_packet` panic via the failed
`assert_eq!(unread_data_at, data.len() + 1)` in the data-delivery clamp
(modelled as `none`): no payload byte is appended, `recv.nxt` is not
advanced, and no ACK is emitted. -/
theorem claim_C2 (c : Connection) (tcph : TcpHeader) (payload : List Nat)
    (now : ℚ)
    (hst : c.state = State.Estab ∨ c.state = State.FinWait1
      ∨ c.state = State.FinWait2)
    (hack : tcph.ack = true)
    (hpl : payload ≠ [])
    (hok : seg_okay c.recv.nxt c.recv.wnd tcph.sequence_number
      (payload.length + (if tcph.fin then 1 else 0)
        + (if tcph.syn then 1 else 0)) = true)
    (hafter : wrapping_lt c.recv.nxt tcph.sequence_number = true)
    (hlen : payload.length + 1 < 2 ^ 31) :
    Connection.on_packet c tcph payload now = none := by
  have hulen : 2 ^ 31 < sub32 c.recv.nxt tcph.sequence_number := by
    unfold wrapping_lt at hafter
    exact of_decide_eq_true hafter
  have hne1 : c.state ≠ State.SynRecvd := by
    rcases hst with h | h | h <;> simp [h]
  have hc1 : estab_transition c tcph.acknowledgment_number = c :=
    estab_transition_eq_of_ne hne1
  obtain ⟨h2st, h2recv, -⟩ :=
    ack_update_fields c tcph.acknowledgment_number now
  obtain ⟨h3st, h3recv, -⟩ :=
    finwait_check_fields (ack_update c tcph.acknowledgment_number now)
  have hst3 : (finwait_check (ack_update c tcph.acknowledgment_number now)).state
      = State.Estab
      ∨ (finwait_check (ack_update c tcph.acknowledgment_number now)).state
      = State.FinWait1
      ∨ (finwait_check (ack_update c tcph.acknowledgment_number now)).state
      = State.FinWait2 := by
    rcases h3st with h | h
    · rw [h, h2st]
      exact hst
    · exact Or.inr (Or.inr h)
  have hpe : payload.isEmpty = false := by
    cases payload with
    | nil => exact absurd rfl hpl
    | cons x t => rfl
  have hdd : data_delivery
      (finwait_check (ack_update c tcph.acknowledgment_number now))
      tcph.sequence_number payload now = none := by
    simp only [data_delivery, hpe, Bool.false_eq_true, if_false,
      if_pos hst3, h3recv, h2recv]
    rw [if_pos (by omega : payload.length <
      sub32 c.recv.nxt tcph.sequence_number)]
    rw [if_neg (by omega : ¬(sub32 c.recv.nxt tcph.sequence_number =
      payload.length + 1))]
  simp only [Connection.on_packet, hok, hack, Bool.not_true,
    Bool.false_eq_true, if_false, hc1, hdd]

/-- Witness for C2 at the concrete state `cW` and segment `tGap`. -/
theorem claim_C2_witness : Connection.on_packet cW tGap [7] 0 = none :=
  claim_C2 cW tGap [7] 0 (Or.inl rfl) rfl (by decide) (by decide) (by decide)
    (by decide)



lemma data_delivery_nil (c : Connection) (seqn : Nat) (now : ℚ) :
    data_delivery c seqn [] now = some (c, []) := by
  simp [data_delivery]

lemma fin_step_false (c : Connection) (now : ℚ) :
    fin_step c false now = some (c, []) := by
  simp [fin_step]

/-- Claim C5, amended: in Estab/FinWait1/FinWait2, a bare ACK whose
number lies strictly inside `(send.una, send.nxt + 1)` drains
`min(ackn - data_start, len(unacked))` bytes from the head of `unacked`
(`data_start = una + 1` when `una == iss`, else `una`) and sets
`send.una = ackn`; but the `send_times`/`srtt` maintenance runs only
when `unacked` is non-empty: then every entry with key strictly inside
`(una, ackn)` is removed, folding `srtt ← 0.8·srtt + 0.2·elapsed` once
per removed entry, and every other entry is retained — when `unacked`
is empty the timers are left untouched. -/
theorem claim_C5 (c : Connection) (tcph : TcpHeader) (now : ℚ)
    (hst : c.state = State.Estab ∨ c.state = State.FinWait1
      ∨ c.state = State.FinWait2)
    (hack : tcph.ack = true) (hsyn : tcph.syn = false)
    (hfin : tcph.fin = false)
    (hok : seg_okay c.recv.nxt c.recv.wnd tcph.sequence_number 0 = true)
    (hb : is_between_wrapped c.send.una tcph.acknowledgment_number
      (add32 c.send.nxt 1) = true) :
    ∃ c' a, Connection.on_packet c tcph [] now = some (c', [], a) ∧
      c'.send.una = tcph.acknowledgment_number ∧
      c'.unacked = c.unacked.drop
        (min (sub32 tcph.acknowledgment_number
          (if c.send.una = c.send.iss then add32 c.send.una 1
            else c.send.una)) c.unacked.length) ∧
      (c.unacked = [] → c'.timers = c.timers) ∧
      (c.unacked ≠ [] →
        c'.timers.send_times = c.timers.send_times.filter
          (fun e => !is_between_wrapped c.send.una e.1
            tcph.acknowledgment_number) ∧
        c'.timers.srtt = (c.timers.send_times.filter
          (fun e => is_between_wrapped c.send.una e.1
            tcph.acknowledgment_number)).foldl
          (fun s e => 4 / 5 * s + 1 / 5 * (now - e.2)) c.timers.srtt) := by
  have hne1 : c.state ≠ State.SynRecvd := by
    rcases hst with h | h | h <;> simp [h]
  have hc1 : estab_transition c tcph.acknowledgment_number = c :=
    estab_transition_eq_of_ne hne1
  have hslen : ([] : List Nat).length + (if tcph.fin = true then 1 else 0)
      + (if tcph.syn = true then 1 else 0) = 0 := by
    rw [hsyn, hfin]
    simp
  obtain ⟨hspec1, hspec2, hspec3, hspec4⟩ :=
    @ack_update_spec c tcph.acknowledgment_number now hst hb
  obtain ⟨-, -, h3send, h3un, h3tim, -, -⟩ :=
    finwait_check_fields (ack_update c tcph.acknowledgment_number now)
  refine ⟨finwait_check (ack_update c tcph.acknowledgment_number now),
    (finwait_check (ack_update c tcph.acknowledgment_number now)).availability,
    ?_, ?_, ?_, ?_, ?_⟩
  · simp only [Connection.on_packet, hsyn, hfin, List.length_nil,
      Bool.false_eq_true, if_false, Nat.add_zero, Nat.zero_add, hok,
      Bool.not_true, hack, hc1, data_delivery_nil, fin_step_false,
      List.nil_append]
  · rw [h3send]
    exact hspec1
  · rw [h3un]
    exact hspec2
  · intro h0
    rw [h3tim]
    exact hspec3 h0
  · intro h0
    refine ⟨?_, ?_⟩
    · rw [h3tim]
      exact (hspec4 h0).1
    · rw [h3tim]
      exact (hspec4 h0).2



/-- Claim C5 as stated is false: with `unacked` empty, the `send_times`
entry at sequence 1 — strictly inside `(send.una, ackn) = (0, 2)` — is
retained and `srtt` is not updated, because the source guards the whole
timer-maintenance block behind `!unacked.is_empty()`. -/
theorem claim_C5_counterexample :
    cX.state = State.Estab ∧ cX.unacked = [] ∧
    is_between_wrapped cX.send.una 1 tAck2.acknowledgment_number = true ∧
    is_between_wrapped cX.send.una tAck2.acknowledgment_number
      (add32 cX.send.nxt 1) = true ∧
    cX.timers.send_times = [(1, 0)] ∧
    (Connection.on_packet cX tAck2 [] 1).map
      (fun r => (r.1.send.una, r.1.timers.send_times, r.1.timers.srtt)) =
      some (2, [(1, 0)], 60) := by decide

/-- Witness for C5 at `cD`: the ACK for 2 drains the single byte, sets
`send.una = 2`, and retains the `send_times` entry at 1 (its key is not
strictly inside `(1, 2)`), leaving `srtt` at 60. -/
theorem claim_C5_witness :
    (Connection.on_packet cD tAck2 [] 5).map
      (fun r => (r.1.send.una, r.1.unacked, r.1.timers.send_times,
        r.1.timers.srtt, r.2.1)) = some (2, [], [(1, 0)], 60, []) := by
  obtain ⟨c', a, hop, hu, hun, hemp, hne⟩ :=
    claim_C5 cD tAck2 5 (Or.inl rfl) rfl rfl rfl (by decide) (by decide)
  obtain ⟨ht, hs⟩ := hne (by decide)
  rw [hop]
  simp only [Option.map_some']
  rw [hu, hun, ht, hs]
  rfl

/-- Claim C7: `TcpStream::write` on a stream whose PCB exists fails
would-block leaving `unacked` untouched when `len(unacked) ≥ 1024`, and
otherwise appends exactly `min(len(buf), 1024 - len(unacked))` bytes
from the front of `buf`, returns that count, and emits no segment. -/
theorem claim_C7 (c : Connection) (buf : List Nat) :
    (SENDQUEUE_SIZE ≤ c.unacked.length →
      streamWrite (some c) buf =
        (some c, Except.error IoErr.WouldBlock, [])) ∧
    (c.unacked.length < SENDQUEUE_SIZE →
      streamWrite (some c) buf =
        (some { c with
            unacked :=
              c.unacked ++
                buf.take (min buf.length (SENDQUEUE_SIZE - c.unacked.length)) },
         Except.ok (min buf.length (SENDQUEUE_SIZE - c.unacked.length)),
         [])) := by
  constructor
  · intro hge
    simp only [streamWrite, if_pos hge]
  · intro hlt
    simp only [streamWrite, if_neg (by omega : ¬ SENDQUEUE_SIZE ≤ c.unacked.length)]

/-- Witness for C7: a full 1024-byte queue makes the write fail
would-block without mutation, and a write of two bytes onto an empty
queue appends both and returns 2. -/
theorem claim_C7_witness :
    streamWrite (some { cW with unacked := List.replicate 1024 7 }) [1, 2] =
      (some { cW with unacked := List.replicate 1024 7 },
       Except.error IoErr.WouldBlock, []) ∧
    streamWrite (some cW) [1, 2] =
      (some { cW with unacked := [1, 2] }, Except.ok 2, []) := by
  constructor
  · exact (claim_C7 { cW with unacked := List.replicate 1024 7 } [1, 2]).1
      (by rw [List.length_replicate]; exact Nat.le_refl 1024)
  · have h := (claim_C7 cW [1, 2]).2 (by decide)
    rw [h]
    rfl

/-- Claim C8: `close` sets `closed = true`; from SynRecvd or Estab it
moves the PCB to FinWait1 and succeeds; in FinWait1/FinWait2 it succeeds
leaving the state unchanged; in TimeWait it fails NotConnected; and it
never emits a segment. -/
theorem claim_C8 (c : Connection) :
    (Connection.close c).1.closed = true ∧
    (Connection.close c).2.2 = [] ∧
    ((c.state = State.SynRecvd ∨ c.state = State.Estab) →
      (Connection.close c).1.state = State.FinWait1 ∧
      (Connection.close c).2.1 = none) ∧
    ((c.state = State.FinWait1 ∨ c.state = State.FinWait2) →
      (Connection.close c).1.state = c.state ∧
      (Connection.close c).2.1 = none) ∧
    (c.state = State.TimeWait →
      (Connection.close c).2.1 = some IoErr.NotConnected) := by
  unfold Connection.close
  cases c.state <;>
    refine ⟨rfl, rfl, ?_, ?_, ?_⟩ <;>
    rintro (h | h) <;> first
      | exact ⟨rfl, rfl⟩
      | exact ⟨h ▸ rfl, rfl⟩
      | cases h
      | rfl

/-- Witness for C8: closing `cW` (Estab) moves it to FinWait1 and closing
a TimeWait PCB fails NotConnected, with `closed` set in both cases. -/
theorem claim_C8_witness :
    (Connection.close cW).1.state = State.FinWait1 ∧
    (Connection.close cW).1.closed = true ∧
    (Connection.close cW).2.1 = none ∧
    (Connection.close { cW with state := State.TimeWait }).2.1 =
      some IoErr.NotConnected := by
  obtain ⟨hcl, -, hse, -, -⟩ := claim_C8 cW
  obtain ⟨-, -, -, -, htw⟩ := claim_C8 { cW with state := State.TimeWait }
  obtain ⟨hs1, hs2⟩ := hse (Or.inr rfl)
  exact ⟨hs1, hcl, hs2, htw rfl⟩



end ToyTcp
